import Mathlib

/-!
Shallow embedding of the Hiskon Photoshop canvas editing engine (the
`ImageStudio` component): the edit-state data model, the history manager
with debounced commits, the pointer tool handlers (draw, shape, select,
crop), crop application, and the renderer at the level of emitted canvas
commands.  JS numbers are modelled as rationals, except in the
trigonometric canvas-extent computation where reals are used; JS arrays
become lists and nullable values become `Option`.
-/

namespace Hiskon

/-- A 2D point in canvas pixel space.  -/
structure Point where
  x : ℚ
  y : ℚ
deriving DecidableEq

/-- Freehand path: ordered point sequence plus stroke color, stroke
width and id (source `Path`). -/
structure Path where
  points : List Point
  color : String
  size : ℚ
  id : String
deriving DecidableEq

/-- Text annotation element (source `TextElement`). -/
structure TextElement where
  text : String
  x : ℚ
  y : ℚ
  color : String
  size : ℚ
  id : String
  hasOutline : Bool
  outlineColor : String
  outlineWidth : ℚ
deriving DecidableEq

/-- Shape discriminator (source `ShapeType`). -/
inductive ShapeType where
  | rectangle
  | circle
  | line
deriving DecidableEq

/-- Vector shape element with two control points (source `ShapeElement`). -/
structure ShapeElement where
  type : ShapeType
  x1 : ℚ
  y1 : ℚ
  x2 : ℚ
  y2 : ℚ
  color : String
  strokeWidth : ℚ
  id : String
deriving DecidableEq

/-- Filter adjustment parameters (shape of source `INITIAL_ADJUSTMENTS`). -/
structure Adjustments where
  brightness : ℚ
  contrast : ℚ
  saturate : ℚ
  grayscale : ℚ
  sepia : ℚ
  invert : ℚ
  blur : ℚ
  hueRotate : ℚ
deriving DecidableEq

/-- Source `INITIAL_ADJUSTMENTS`. -/
def INITIAL_ADJUSTMENTS : Adjustments :=
  { brightness := 100, contrast := 100, saturate := 100, grayscale := 0
    sepia := 0, invert := 0, blur := 0, hueRotate := 0 }

/-- Flip flags (source `INITIAL_TRANSFORMS.flip` shape). -/
structure Flip where
  horizontal : Bool
  vertical : Bool
deriving DecidableEq

/-- Geometric transforms: rotation in degrees plus flip flags. -/
structure Transforms where
  rotate : ℚ
  flip : Flip
deriving DecidableEq

/-- Source `INITIAL_TRANSFORMS`. -/
def INITIAL_TRANSFORMS : Transforms :=
  { rotate := 0, flip := { horizontal := false, vertical := false } }

/-- The aggregate edit snapshot (source `EditState`). -/
structure EditState where
  adjustments : Adjustments
  transforms : Transforms
  paths : List Path
  texts : List TextElement
  shapes : List ShapeElement
deriving DecidableEq

/-- Source `INITIAL_EDIT_STATE`. -/
def INITIAL_EDIT_STATE : EditState :=
  { adjustments := INITIAL_ADJUSTMENTS, transforms := INITIAL_TRANSFORMS
    paths := [], texts := [], shapes := [] }

/-- A `Partial<EditState>` as passed to `recordHistory`: each field is
optionally overridden. -/
structure EditPatch where
  adjustments : Option Adjustments
  transforms : Option Transforms
  paths : Option (List Path)
  texts : Option (List TextElement)
  shapes : Option (List ShapeElement)
deriving DecidableEq

/-- The patch that overrides nothing. -/
def emptyPatch : EditPatch := ⟨none, none, none, none, none⟩

/-- JS object spread `{...current, ...patch}` on an edit state. -/
def mergeState (cur : EditState) (p : EditPatch) : EditState :=
  { adjustments := p.adjustments.getD cur.adjustments
    transforms := p.transforms.getD cur.transforms
    paths := p.paths.getD cur.paths
    texts := p.texts.getD cur.texts
    shapes := p.shapes.getD cur.shapes }

/-- The active tool (source `ActiveTool` without the `null` case, which
is modelled by `Option Tool`). -/
inductive Tool where
  | adjust
  | transform
  | crop
  | draw
  | text
  | shape
  | select
  | harmonize
  | remove
deriving DecidableEq

/-- Kind tag of a selected element. -/
inductive ElemKind where
  | text
  | shape
deriving DecidableEq

/-- Weak reference to a selected element (source `selectedElement`). -/
structure SelectedRef where
  kind : ElemKind
  id : String
deriving DecidableEq

/-- Decoded source image, reduced to its intrinsic dimensions. -/
structure Img where
  width : ℚ
  height : ℚ
deriving DecidableEq

/-- Crop rectangle (source `cropRect`). -/
structure CropRect where
  x : ℚ
  y : ℚ
  width : ℚ
  height : ℚ
deriving DecidableEq

/-- The mutable state of one `ImageStudio` session, restricted to the
fields the modelled handlers read or write.  `current` bundles the five
component states `adjustments`, `transforms`, `paths`, `texts`,
`shapes`; `pending` models the single debounce timer slot
(`historyTimeoutRef` plus its scheduled payload). -/
structure Session where
  current : EditState
  history : List EditState
  historyIndex : Int
  pending : Option EditPatch
  originalImage : Option Img
  cropRect : Option CropRect
  activeTool : Option Tool
  selectedElement : Option SelectedRef
  isDrawing : Bool
  isDragging : Bool
  dragStart : Point
  startPoint : Option Point
  textPosition : Option Point
  currentText : String
  brushColor : String
  brushSize : ℚ
  removeBrushSize : ℚ
  shapeType : ShapeType
  shapeColor : String
  shapeStrokeWidth : ℚ
  removeMask : List Path
  foregroundImage : Option Img
  subjectMask : Option String
  fileName : String
  exportFileName : String
deriving DecidableEq

/-- The initial values of the corresponding `useState`/`useRef` hooks. -/
def defaultSession : Session :=
  { current := INITIAL_EDIT_STATE, history := [], historyIndex := -1
    pending := none, originalImage := none, cropRect := none
    activeTool := none, selectedElement := none
    isDrawing := false, isDragging := false
    dragStart := { x := 0, y := 0 }, startPoint := none
    textPosition := none, currentText := ""
    brushColor := "#ffffff", brushSize := 5, removeBrushSize := 20
    shapeType := ShapeType.rectangle, shapeColor := "#4285F4"
    shapeStrokeWidth := 4
    removeMask := [], foregroundImage := none, subjectMask := none
    fileName := "", exportFileName := "hiskon-photoshop-export" }

/-- JS `Array.prototype.slice(0, e)`: a negative end counts from the end
of the array. -/
def jsSlice (l : List EditState) (e : Int) : List EditState :=
  if e < 0 then l.take ((l.length : Int) + e).toNat else l.take e.toNat

/-- The history-restore effect (source lines 157-167): whenever
`history`/`historyIndex` change and the index is in bounds, the five
component states are overwritten with the snapshot at the index. -/
def applyRestore (s : Session) : Session :=
  if 0 ≤ s.historyIndex ∧ s.historyIndex < (s.history.length : Int) then
    { s with current := s.history.getD s.historyIndex.toNat INITIAL_EDIT_STATE }
  else s

/-- Source `recordHistory`: merge the patch over the current component
states, truncate the history beyond the current index, append, and move
the index to the new tail; the restore effect then fires. -/
def recordHistory (s : Session) (p : EditPatch) : Session :=
  let nextState := mergeState s.current p
  let newHistory := jsSlice s.history (s.historyIndex + 1) ++ [nextState]
  applyRestore { s with history := newHistory
                        historyIndex := (newHistory.length : Int) - 1 }

/-- Source `recordHistoryWithDebounce`: cancel any scheduled commit and
schedule this patch in the single timer slot. -/
def recordHistoryWithDebounce (s : Session) (p : EditPatch) : Session :=
  { s with pending := some p }

/-- The debounce window (400ms) elapsing with no further call: the
scheduled commit, if any, fires. -/
def elapseDebounce (s : Session) : Session :=
  match s.pending with
  | none => s
  | some p => { recordHistory s p with pending := none }

/-- Source `handleUndo`: decrement the index when it is positive; the
restore effect then fires. -/
def handleUndo (s : Session) : Session :=
  if 0 < s.historyIndex then
    applyRestore { s with historyIndex := s.historyIndex - 1 }
  else s

/-- Source `handleRedo`, verbatim: the guard admits indices left of the
tail, but the update is `prev - 1` — a decrement, exactly as in
`handleUndo`. -/
def handleRedo (s : Session) : Session :=
  if s.historyIndex < (s.history.length : Int) - 1 then
    applyRestore { s with historyIndex := s.historyIndex - 1 }
  else s

/-- Source `resetEdits(initialState)`: reset the component states and
ephemeral tool state, and reinitialise the history to the single given
snapshot at index 0. -/
def resetEdits (s : Session) (initialState : EditState) : Session :=
  { s with current := initialState
           activeTool := none, cropRect := none
           textPosition := none, currentText := ""
           selectedElement := none, foregroundImage := none
           removeMask := [], subjectMask := none
           history := [initialState], historyIndex := 0 }

/-- Source `handleApplyCrop`: ignored when there is no crop rectangle,
no canvas (no loaded image), or a non-positive width or height;
otherwise a new source image of exactly the rectangle's dimensions is
produced and the session is reset. -/
def handleApplyCrop (s : Session) : Session :=
  match s.cropRect, s.originalImage with
  | some r, some _ =>
      if r.width ≤ 0 ∨ r.height ≤ 0 then s
      else resetEdits
        { s with originalImage := some { width := r.width, height := r.height }
                 fileName := "cropped-image.png"
                 exportFileName := "cropped-image" }
        INITIAL_EDIT_STATE
  | _, _ => s

/-- The text hit test inside `handleMouseDown`'s `select` branch:
anchor-aligned box of width `size * text.length * 0.6` and height
`size`, with inclusive comparisons. -/
def textHit (coords : Point) (t : TextElement) : Bool :=
  decide (t.x ≤ coords.x) &&
  decide (coords.x ≤ t.x + t.size * (t.text.length : ℚ) * 0.6) &&
  decide (t.y ≤ coords.y) &&
  decide (coords.y ≤ t.y + t.size)

/-- The shape hit test inside `handleMouseDown`'s `select` branch:
axis-aligned bounding box of the two control points via min/max, with
inclusive comparisons. -/
def shapeHit (coords : Point) (sh : ShapeElement) : Bool :=
  decide (min sh.x1 sh.x2 ≤ coords.x) &&
  decide (coords.x ≤ max sh.x1 sh.x2) &&
  decide (min sh.y1 sh.y2 ≤ coords.y) &&
  decide (coords.y ≤ max sh.y1 sh.y2)

/-- Source `handleMouseDown`.  `coords` is the result of
`getCanvasCoordinates` and `newId` stands for `Date.now().toString()`.
The handler records the start point, opens the interaction, clears the
selection, and then branches on the active tool. -/
def handleMouseDown (s : Session) (newId : String) (coords : Point) : Session :=
  let s := { s with startPoint := some coords, isDrawing := true
                    selectedElement := none }
  match s.activeTool with
  | some Tool.draw =>
      { s with current := { s.current with paths := s.current.paths ++
          [{ points := [coords], color := s.brushColor, size := s.brushSize
             id := newId }] } }
  | some Tool.remove =>
      { s with removeMask := s.removeMask ++
          [{ points := [coords], color := "#ff007f", size := s.removeBrushSize
             id := newId }] }
  | some Tool.text => { s with textPosition := some coords }
  | some Tool.shape =>
      { s with current := { s.current with shapes := s.current.shapes ++
          [{ type := s.shapeType, x1 := coords.x, y1 := coords.y
             x2 := coords.x, y2 := coords.y, color := s.shapeColor
             strokeWidth := s.shapeStrokeWidth, id := newId }] } }
  | some Tool.select =>
      match s.current.texts.find? (textHit coords) with
      | some t =>
          { s with selectedElement := some { kind := ElemKind.text, id := t.id }
                   isDragging := true
                   dragStart := { x := coords.x - t.x, y := coords.y - t.y } }
      | none =>
          match s.current.shapes.find? (shapeHit coords) with
          | some sh =>
              { s with selectedElement := some { kind := ElemKind.shape, id := sh.id }
                       isDragging := true
                       dragStart := { x := coords.x - sh.x1, y := coords.y - sh.y1 } }
          | none => s
  | _ => s

/-- JS in-place mutation of the last array element
(`arr[arr.length-1] = ...` after a shallow copy); empty arrays are left
unchanged (the source would fault there, but the handlers only reach
this with a nonempty array). -/
def updateLast (f : α → α) : List α → List α
  | [] => []
  | [a] => [f a]
  | a :: b :: rest => a :: updateLast f (b :: rest)

/-- Source `handleMouseMove`: no-op unless an interaction is open; a
`select` drag translates the selected element, `crop` renormalises the
crop rectangle from the start point, `draw`/`remove` append the point to
the open path, `shape` overwrites the open shape's second control
point. -/
def handleMouseMove (s : Session) (coords : Point) : Session :=
  if s.isDrawing = false then s
  else
    match s.activeTool, s.isDragging, s.selectedElement with
    | some Tool.select, true, some sel =>
        match sel.kind with
        | ElemKind.text =>
            let newTexts := s.current.texts.map (fun t =>
              if t.id = sel.id then
                { t with x := coords.x - s.dragStart.x
                         y := coords.y - s.dragStart.y }
              else t)
            { s with current := { s.current with texts := newTexts } }
        | ElemKind.shape =>
            let newShapes := s.current.shapes.map (fun sh =>
              if sh.id = sel.id then
                let dx := coords.x - s.dragStart.x - sh.x1
                let dy := coords.y - s.dragStart.y - sh.y1
                { sh with x1 := sh.x1 + dx, y1 := sh.y1 + dy
                          x2 := sh.x2 + dx, y2 := sh.y2 + dy }
              else sh)
            { s with current := { s.current with shapes := newShapes } }
    | some Tool.crop, _, _ =>
        match s.startPoint with
        | some sp =>
            let r : CropRect :=
              { x := min sp.x coords.x, y := min sp.y coords.y
                width := |sp.x - coords.x|, height := |sp.y - coords.y| }
            { s with cropRect := some r }
        | none => s
    | some Tool.draw, _, _ =>
        let newPaths := updateLast
          (fun p => { p with points := p.points ++ [coords] }) s.current.paths
        { s with current := { s.current with paths := newPaths } }
    | some Tool.remove, _, _ =>
        let newMask := updateLast
          (fun p => { p with points := p.points ++ [coords] }) s.removeMask
        { s with removeMask := newMask }
    | some Tool.shape, _, _ =>
        let newShapes := updateLast
          (fun sh => { sh with x2 := coords.x, y2 := coords.y }) s.current.shapes
        { s with current := { s.current with shapes := newShapes } }
    | _, _, _ => s

/-- Source `handleMouseUpOrLeave`: when an interaction is open, commit
for the `draw` and `shape` tools and for a `select` drag; then close the
interaction. -/
def handleMouseUpOrLeave (s : Session) : Session :=
  let s1 :=
    if s.isDrawing then
      match s.activeTool with
      | some Tool.draw =>
          recordHistory s { emptyPatch with paths := some s.current.paths }
      | some Tool.shape =>
          recordHistory s { emptyPatch with shapes := some s.current.shapes }
      | some Tool.select =>
          if s.isDragging then
            recordHistory s { emptyPatch with texts := some s.current.texts
                                              shapes := some s.current.shapes }
          else s
      | _ => s
    else s
  { s1 with isDrawing := false, isDragging := false, startPoint := none }

/-- A sequence of `recordHistory` commits. -/
def commitList (s : Session) : List EditPatch → Session
  | [] => s
  | p :: ps => commitList (recordHistory s p) ps

/-- The snapshots a sequence of commits records, in order: each patch is
merged over the previously committed snapshot. -/
def committedStates (cur : EditState) : List EditPatch → List EditState
  | [] => []
  | p :: ps =>
      let c := mergeState cur p
      c :: committedStates c ps

/-- `handleUndo` iterated. -/
def undoTimes (s : Session) : Nat → Session
  | 0 => s
  | n + 1 => undoTimes (handleUndo s) n

/-- A burst of `recordHistoryWithDebounce` calls, all within one
debounce window. -/
def fireList (s : Session) (ps : List EditPatch) : Session :=
  ps.foldl recordHistoryWithDebounce s

/-- One canvas drawing command emitted by the renderer.  The circle
command stores the squared radius: the source computes
`radius = sqrt((x2-x1)^2 + (y2-y1)^2)` and squaring is injective on
nonnegative radii, so equality of command lists is unchanged while the
payload stays rational. -/
inductive Cmd where
  | image (adj : Adjustments) (tr : Transforms) (w h : ℚ)
  | beginPath
  | setStroke (color : String) (width : ℚ)
  | moveTo (x y : ℚ)
  | lineTo (x y : ℚ)
  | strokePath
  | rect (x y w h : ℚ)
  | circle (cx cy radiusSq : ℚ)
  | fillText (t : String) (x y : ℚ) (color : String) (size : ℚ)
  | strokeText (t : String) (x y : ℚ) (color : String) (width : ℚ)
deriving DecidableEq

/-- Source `drawPath` (render lines 211-221): paths of fewer than 2
points draw nothing; otherwise a round-capped polyline is stroked. -/
def drawPath (p : Path) : List Cmd :=
  if p.points.length < 2 then []
  else
    match p.points with
    | [] => []
    | pt0 :: rest =>
        Cmd.beginPath :: Cmd.setStroke p.color p.size ::
          Cmd.moveTo pt0.x pt0.y ::
          (rest.map (fun q => Cmd.lineTo q.x q.y) ++ [Cmd.strokePath])

/-- The per-shape render step (render lines 226-240). -/
def drawShape (sh : ShapeElement) : List Cmd :=
  let body :=
    match sh.type with
    | ShapeType.rectangle =>
        [Cmd.rect sh.x1 sh.y1 (sh.x2 - sh.x1) (sh.y2 - sh.y1)]
    | ShapeType.circle =>
        [Cmd.circle sh.x1 sh.y1 ((sh.x2 - sh.x1) ^ 2 + (sh.y2 - sh.y1) ^ 2)]
    | ShapeType.line =>
        [Cmd.moveTo sh.x1 sh.y1, Cmd.lineTo sh.x2 sh.y2]
  Cmd.setStroke sh.color sh.strokeWidth :: Cmd.beginPath :: body ++ [Cmd.strokePath]

/-- The per-text render step (render lines 242-253). -/
def drawText (t : TextElement) : List Cmd :=
  (if t.hasOutline then [Cmd.strokeText t.text t.x t.y t.outlineColor t.outlineWidth]
   else []) ++ [Cmd.fillText t.text t.x t.y t.color t.size]

/-- The deterministic layers of the render function in source order:
filtered and transformed source image, committed draw paths, the removal
mask while the `remove` tool is active, shapes, texts.  (The
asynchronous subject-mask composite and the ephemeral crop/selection
overlays are outside this claim-relevant core.) -/
def renderCommands (st : EditState) (tool : Option Tool)
    (removeMask : List Path) (w h : ℚ) : List Cmd :=
  Cmd.image st.adjustments st.transforms w h ::
    ((st.paths.map drawPath).flatten ++
     (if tool = some Tool.remove then (removeMask.map drawPath).flatten else []) ++
     (st.shapes.map drawShape).flatten ++
     (st.texts.map drawText).flatten)

/-- Transforms with a real-valued angle, for the trigonometric canvas
extent computation. -/
structure TransformsR where
  rotate : ℝ
  flip : Flip

/-- The output canvas extent computed by the renderer (render lines
198-201): `rad = rotate * PI / 180`, then
`(w * |cos rad| + h * |sin rad|, h * |cos rad| + w * |sin rad|)`.  The
flip flags are destructured alongside but never read here. -/
noncomputable def renderCanvasSize (w h : ℝ) (t : TransformsR) : ℝ × ℝ :=
  let rad := t.rotate * Real.pi / 180
  let absCos := |Real.cos rad|
  let absSin := |Real.sin rad|
  (w * absCos + h * absSin, h * absCos + w * absSin)

/-- Spec-side predicate (claim wording): the point is strictly inside
the axis-aligned bounding box of the shape's two control points. -/
def specStrictlyInsideShapeBox (pt : Point) (sh : ShapeElement) : Prop :=
  min sh.x1 sh.x2 < pt.x ∧ pt.x < max sh.x1 sh.x2 ∧
  min sh.y1 sh.y2 < pt.y ∧ pt.y < max sh.y1 sh.y2

/-- Spec-side predicate (claim wording): the point is strictly outside
the shape's bounding box. -/
def specStrictlyOutsideShapeBox (pt : Point) (sh : ShapeElement) : Prop :=
  pt.x < min sh.x1 sh.x2 ∨ max sh.x1 sh.x2 < pt.x ∨
  pt.y < min sh.y1 sh.y2 ∨ max sh.y1 sh.y2 < pt.y

/-- Spec-side predicate (claim wording): the point is strictly outside
the text element's estimated box. -/
def specStrictlyOutsideTextBox (pt : Point) (t : TextElement) : Prop :=
  pt.x < t.x ∨ t.x + t.size * (t.text.length : ℚ) * 0.6 < pt.x ∨
  pt.y < t.y ∨ t.y + t.size < pt.y

/-! ### Demo data used by counterexamples and witnesses -/

/-- A snapshot differing from the initial one (rotated by 90°). -/
def stateA : EditState :=
  { INITIAL_EDIT_STATE with transforms :=
      { rotate := 90, flip := { horizontal := false, vertical := false } } }

/-- Session after one commit and one undo: history `[initial, stateA]`,
index 0. -/
def c1session : Session :=
  { defaultSession with history := [INITIAL_EDIT_STATE, stateA]
                        historyIndex := 0 }

/-- A concrete 10×10 rectangle shape anchored at the origin. -/
def demoShape : ShapeElement :=
  { type := ShapeType.rectangle, x1 := 0, y1 := 0, x2 := 10, y2 := 10
    color := "#4285F4", strokeWidth := 4, id := "7" }

/-- A concrete text element at (100, 100). -/
def demoText : TextElement :=
  { text := "hi", x := 100, y := 100, color := "#ffffff", size := 32
    id := "t1", hasOutline := false, outlineColor := "#000000"
    outlineWidth := 2 }

/-- Session with a 100×100 image and an out-of-bounds crop rectangle of
positive area (x = 200 on a canvas of width 100). -/
def c5session : Session :=
  { defaultSession with originalImage := some { width := 100, height := 100 }
                        cropRect := some { x := 200, y := 0, width := 50, height := 50 }
                        activeTool := some Tool.crop
                        history := [INITIAL_EDIT_STATE], historyIndex := 0 }

/-- The edit state holding just `demoShape`. -/
def c6state : EditState := { INITIAL_EDIT_STATE with shapes := [demoShape] }

/-- Freshly committed session with one shape, `select` tool active. -/
def c6session : Session :=
  { defaultSession with current := c6state, history := [c6state]
                        historyIndex := 0, activeTool := some Tool.select
                        originalImage := some { width := 100, height := 100 } }

/-- Pointer-down at (5,5) on `c6session`: hits `demoShape`, starts a
drag. -/
def c6down : Session := handleMouseDown c6session "99" { x := 5, y := 5 }

/-- Session with one text and one shape, `select` tool active. -/
def c7session : Session :=
  { defaultSession with
      current := { INITIAL_EDIT_STATE with texts := [demoText], shapes := [demoShape] }
      history := [{ INITIAL_EDIT_STATE with texts := [demoText], shapes := [demoShape] }]
      historyIndex := 0, activeTool := some Tool.select
      originalImage := some { width := 100, height := 100 } }

/-- Session mid-drag on `demoShape` with the `select` tool. -/
def c9session : Session :=
  { defaultSession with
      current := { INITIAL_EDIT_STATE with shapes := [demoShape] }
      history := [{ INITIAL_EDIT_STATE with shapes := [demoShape] }]
      historyIndex := 0, activeTool := some Tool.select
      isDrawing := true, isDragging := true
      selectedElement := some { kind := ElemKind.shape, id := "7" }
      dragStart := { x := 1, y := 1 }
      originalImage := some { width := 100, height := 100 } }

/-- A one-point path. -/
def onePointPath : Path :=
  { points := [{ x := 3, y := 4 }], color := "#ffffff", size := 5, id := "p1" }

/-- Freshly reset session with the `draw` tool active. -/
def c10session : Session :=
  { defaultSession with history := [INITIAL_EDIT_STATE], historyIndex := 0
                        activeTool := some Tool.draw
                        originalImage := some { width := 100, height := 100 } }

/-- Brightness 150, all other adjustments neutral. -/
def brightAdj : Adjustments := { INITIAL_ADJUSTMENTS with brightness := 150 }

/-- A patch setting one adjustment. -/
def wPatch : EditPatch := { emptyPatch with adjustments := some brightAdj }

/-- Rotation by 90°, no flips. -/
def rot90 : Transforms :=
  { rotate := 90, flip := { horizontal := false, vertical := false } }

/-- A patch setting the transforms. -/
def wPatch2 : EditPatch := { emptyPatch with transforms := some rot90 }

/-- Freshly reset session: history `[initial]`, index 0. -/
def wSession : Session :=
  { defaultSession with history := [INITIAL_EDIT_STATE], historyIndex := 0 }

/-- Session with a 100×100 image and the in-bounds crop rectangle
(10, 10, 50, 50). -/
def c5good : Session :=
  { defaultSession with originalImage := some { width := 100, height := 100 }
                        cropRect := some { x := 10, y := 10, width := 50, height := 50 }
                        activeTool := some Tool.crop
                        history := [INITIAL_EDIT_STATE], historyIndex := 0 }

/-- The exact condition under which `handleMouseUpOrLeave` commits a
history entry, read off the source control flow: an open interaction
with the `draw` or `shape` tool, or with the `select` tool while a drag
is active — whether or not the drag moved anything. -/
def commitOnRelease (s : Session) : Prop :=
  s.isDrawing = true ∧
    (s.activeTool = some Tool.draw ∨ s.activeTool = some Tool.shape ∨
      (s.activeTool = some Tool.select ∧ s.isDragging = true))

instance (s : Session) : Decidable (commitOnRelease s) := by
  unfold commitOnRelease
  infer_instance

/-- An all-zero shape used only as a `getD` fallback below indices that
are in bounds. -/
def defaultShape : ShapeElement :=
  { type := ShapeType.rectangle, x1 := 0, y1 := 0, x2 := 0, y2 := 0
    color := "", strokeWidth := 0, id := "" }

/-- Claim-side vocabulary: both control points of a shape translated by
the same delta, all other fields untouched. -/
def specTranslateShape (sh : ShapeElement) (dx dy : ℚ) : ShapeElement :=
  { sh with x1 := sh.x1 + dx, y1 := sh.y1 + dy
            x2 := sh.x2 + dx, y2 := sh.y2 + dy }

/-- An edit state whose only content is a single one-point path. -/
def c10state : EditState := { INITIAL_EDIT_STATE with paths := [onePointPath] }

/-! ### Helper lemmas -/

theorem getD_concat_self {α : Type} (l : List α) (a d : α) :
    (l ++ [a]).getD l.length d = a := by
  induction l with
  | nil => rfl
  | cons b t ih => simp only [List.cons_append, List.length_cons, List.getD_cons_succ]; exact ih

theorem getLastD_concat {α : Type} (l : List α) (a d : α) :
    (l ++ [a]).getLastD d = a := by
  cases l with
  | nil => rfl
  | cons b t => rw [List.getLastD_eq_getLast?, List.getLast?_append]; rfl

theorem getD_map_lt {α : Type} (f : α → α) (l : List α) (i : Nat) (d : α)
    (h : i < l.length) :
    (l.map f).getD i d = f (l.getD i d) := by
  induction l generalizing i with
  | nil => simp at h
  | cons a t ih =>
    cases i with
    | zero => rfl
    | succ n => simpa using ih n (by simpa using h)

theorem committedStates_length (cur : EditState) (ps : List EditPatch) :
    (committedStates cur ps).length = ps.length := by
  induction ps generalizing cur with
  | nil => rfl
  | cons p t ih => simpa [committedStates] using ih (mergeState cur p)

/-- A commit at the tail of the history appends and advances. -/
theorem recordHistory_tail (s : Session) (p : EditPatch)
    (hT : s.historyIndex = (s.history.length : Int) - 1)
    (h0 : 0 ≤ s.historyIndex) :
    recordHistory s p =
      { s with history := s.history ++ [mergeState s.current p]
               historyIndex := (s.history.length : Int)
               current := mergeState s.current p } := by
  have hsl : jsSlice s.history (s.historyIndex + 1) = s.history := by
    unfold jsSlice
    rw [if_neg (by omega)]
    have he : (s.historyIndex + 1).toNat = s.history.length := by omega
    rw [he, List.take_length]
  cases s with
  | mk cur hist idx pnd oi cr act sel dr dg ds sp tp ct bc bs rbs sty sc ssw rm fi sm fn efn =>
  simp only at hsl hT h0
  unfold recordHistory applyRestore
  simp only [hsl]
  rw [if_pos (by simp only [List.length_append, List.length_cons, List.length_nil]; omega)]
  simp only [Session.mk.injEq, List.length_append, List.length_cons, List.length_nil,
    eq_self_iff_true, true_and, and_true]
  constructor
  · have he2 : (((hist.length + 1 : Nat) : Int) - 1).toNat = hist.length := by omega
    rw [he2, getD_concat_self]
  · omega

/-- Committing a list of patches from a tail position appends the
committed snapshots, keeps the index at the tail, and displays the last
snapshot. -/
theorem commitList_tail (ps : List EditPatch) : ∀ (s : Session),
    s.historyIndex = (s.history.length : Int) - 1 → 0 ≤ s.historyIndex →
    commitList s ps =
      { s with history := s.history ++ committedStates s.current ps
               historyIndex := s.historyIndex + ps.length
               current := (s.current :: committedStates s.current ps).getD
                 ps.length INITIAL_EDIT_STATE } := by
  induction ps with
  | nil =>
    intro s hT h0
    cases s with
    | mk cur hist idx pnd oi cr act sel dr dg ds sp tp ct bc bs rbs sty sc ssw rm fi sm fn efn =>
    simp [commitList, committedStates, Session.mk.injEq]
  | cons p t ih =>
    intro s hT h0
    have hrec := recordHistory_tail s p hT h0
    have hstep : commitList s (p :: t) = commitList (recordHistory s p) t := rfl
    rw [hstep, hrec]
    rw [ih _ (by simp only [List.length_append, List.length_cons, List.length_nil]; omega)
          (by simp only []; omega)]
    cases s with
    | mk cur hist idx pnd oi cr act sel dr dg ds sp tp ct bc bs rbs sty sc ssw rm fi sm fn efn =>
    simp only at hT h0
    simp only [committedStates, Session.mk.injEq, List.append_assoc, List.singleton_append,
      List.length_cons, List.getD_cons_succ, eq_self_iff_true, true_and, and_true]
    push_cast
    omega

/-- One undo from a positive in-bounds index decrements the index and
restores the snapshot there. -/
theorem handleUndo_pos (s : Session)
    (hpos : 0 < s.historyIndex) (hlt : s.historyIndex < (s.history.length : Int)) :
    handleUndo s =
      { s with historyIndex := s.historyIndex - 1
               current := s.history.getD (s.historyIndex - 1).toNat
                 INITIAL_EDIT_STATE } := by
  cases s with
  | mk cur hist idx pnd oi cr act sel dr dg ds sp tp ct bc bs rbs sty sc ssw rm fi sm fn efn =>
  simp only at hpos hlt
  unfold handleUndo applyRestore
  rw [if_pos hpos, if_pos (by constructor <;> (simp only []; omega))]

/-- `M` undos from an in-bounds displayed state subtract `M` from the
index and display the snapshot there, provided `M` does not pass the
start of the history. -/
theorem undoTimes_spec (M : Nat) : ∀ (s : Session),
    0 ≤ s.historyIndex → s.historyIndex < (s.history.length : Int) →
    s.current = s.history.getD s.historyIndex.toNat INITIAL_EDIT_STATE →
    (M : Int) ≤ s.historyIndex →
    undoTimes s M =
      { s with historyIndex := s.historyIndex - M
               current := s.history.getD (s.historyIndex - M).toNat
                 INITIAL_EDIT_STATE } := by
  induction M with
  | zero =>
    intro s h0 hlt hcur hM
    cases s with
    | mk cur hist idx pnd oi cr act sel dr dg ds sp tp ct bc bs rbs sty sc ssw rm fi sm fn efn =>
    simp only at hcur
    simp [undoTimes, Session.mk.injEq, hcur]
  | succ n ih =>
    intro s h0 hlt hcur hM
    have hstep : undoTimes s (n + 1) = undoTimes (handleUndo s) n := rfl
    rw [hstep, handleUndo_pos s (by omega) hlt]
    rw [ih _ (by simp only []; omega) (by simp only []; omega) (by simp only []) (by simp only []; omega)]
    cases s with
    | mk cur hist idx pnd oi cr act sel dr dg ds sp tp ct bc bs rbs sty sc ssw rm fi sm fn efn =>
    simp only at h0 hlt hcur hM
    have harg : idx - 1 - (n : Int) = idx - ((n : Nat) + 1 : Nat) := by push_cast; omega
    simp only [Session.mk.injEq, harg, eq_self_iff_true, true_and, and_true]

/-- A burst of debounced calls only overwrites the pending slot with the
last patch. -/
theorem fireList_set (ps : List EditPatch) : ∀ (s : Session) (p : EditPatch),
    fireList { s with pending := some p } ps =
      { s with pending := some (ps.getLastD p) } := by
  induction ps with
  | nil => intro s p; rfl
  | cons q qs ih =>
    intro s p
    have hstep : fireList { s with pending := some p } (q :: qs) =
        fireList { s with pending := some q } qs := rfl
    rw [hstep, ih s q, List.getLastD_cons]

/-- `recordHistory` neither reads nor writes the pending debounce slot. -/
theorem recordHistory_pending (s : Session) (x : Option EditPatch) (p : EditPatch) :
    recordHistory { s with pending := x } p =
      { recordHistory s p with pending := x } := by
  cases s with
  | mk cur hist idx pnd oi cr act sel dr dg ds sp tp ct bc bs rbs sty sc ssw rm fi sm fn efn =>
  unfold recordHistory applyRestore
  simp only []
  split <;> rfl

/-- The restore effect never touches the history list. -/
theorem applyRestore_history (s : Session) : (applyRestore s).history = s.history := by
  unfold applyRestore
  split <;> rfl

/-- The restore effect never touches the index. -/
theorem applyRestore_historyIndex (s : Session) :
    (applyRestore s).historyIndex = s.historyIndex := by
  unfold applyRestore
  split <;> rfl

/-- The history produced by a commit, for any index. -/
theorem recordHistory_history (s : Session) (p : EditPatch) :
    (recordHistory s p).history
      = jsSlice s.history (s.historyIndex + 1) ++ [mergeState s.current p] := by
  unfold recordHistory
  rw [applyRestore_history]

/-- A commit always leaves the index at the new tail. -/
theorem recordHistory_historyIndex (s : Session) (p : EditPatch) :
    (recordHistory s p).historyIndex
      = ((recordHistory s p).history.length : Int) - 1 := by
  unfold recordHistory
  rw [applyRestore_historyIndex, applyRestore_history]

/-- At a tail position a commit appends exactly one entry. -/
theorem recordHistory_history_tail (s : Session) (p : EditPatch)
    (hT : s.historyIndex = (s.history.length : Int) - 1)
    (h0 : 0 ≤ s.historyIndex) :
    (recordHistory s p).history = s.history ++ [mergeState s.current p] := by
  rw [recordHistory_tail s p hT h0]

/-- Merging a patch whose populated fields are copied from the state
itself is the identity (structure eta). -/
theorem mergeState_paths_self (cur : EditState) :
    mergeState cur { emptyPatch with paths := some cur.paths } = cur := rfl

theorem mergeState_shapes_self (cur : EditState) :
    mergeState cur { emptyPatch with shapes := some cur.shapes } = cur := rfl

theorem mergeState_texts_shapes_self (cur : EditState) :
    mergeState cur { emptyPatch with texts := some cur.texts
                                     shapes := some cur.shapes } = cur := rfl

/-! ### Claims -/

/-- C1: the claim says redo increments the index by 1 when
`index < length - 1`.  The source `handleRedo` has that guard but runs
`setHistoryIndex(prev => prev - 1)`: at the concrete session with
history `[initial, stateA]` and index 0 the guard holds (0 < 1), yet
the index after redo is -1, not the claimed 1.  The `Redo` button
label, icon and disabled-condition show the intent is the claimed
increment, so this is a bug in the code. -/
theorem c1_redo_decrements_on_concrete_session :
    c1session.historyIndex = 0 ∧
    c1session.history.length = 2 ∧
    c1session.historyIndex < (c1session.history.length : Int) - 1 ∧
    (handleRedo c1session).historyIndex = -1 := by decide

/-- C3: for every session with a valid index (at least -1, the value
before any image loads) and every patch, `recordHistory` truncates the
snapshots after the current index, appends the merged state, and sets
the index to the new last position; consequently redo immediately after
a commit is a no-op. -/
theorem c3_commit_truncates_appends_and_redo_noop (s : Session) (p : EditPatch)
    (hge : -1 ≤ s.historyIndex) :
    (recordHistory s p).history
        = s.history.take (s.historyIndex + 1).toNat ++ [mergeState s.current p]
    ∧ (recordHistory s p).historyIndex
        = ((recordHistory s p).history.length : Int) - 1
    ∧ handleRedo (recordHistory s p) = recordHistory s p := by
  have hhist : (recordHistory s p).history
      = s.history.take (s.historyIndex + 1).toNat ++ [mergeState s.current p] := by
    rw [recordHistory_history]
    unfold jsSlice
    rw [if_neg (by omega)]
  have hidx := recordHistory_historyIndex s p
  refine ⟨hhist, hidx, ?_⟩
  unfold handleRedo
  rw [if_neg (by rw [hidx]; omega)]

/-- C3 witness: at the session `[initial, stateA]` with index 0 (one
undo back), committing `wPatch` truncates `stateA`, appends the merged
snapshot, puts the index at the tail, and redo is then a no-op. -/
theorem c3_witness :
    (-1 : Int) ≤ c1session.historyIndex ∧
    ((recordHistory c1session wPatch).history
        = c1session.history.take (c1session.historyIndex + 1).toNat
            ++ [mergeState c1session.current wPatch]
      ∧ (recordHistory c1session wPatch).historyIndex
          = ((recordHistory c1session wPatch).history.length : Int) - 1
      ∧ handleRedo (recordHistory c1session wPatch)
          = recordHistory c1session wPatch) :=
  ⟨by decide, c3_commit_truncates_appends_and_redo_noop c1session wPatch (by decide)⟩

/-- C8: the renderer's output canvas extent equals
`(w·|cos θ| + h·|sin θ|, h·|cos θ| + w·|sin θ|)` for `θ` the rotation
angle in radians (`rotate·π/180`), it does not depend on the flip
flags, and at angle 0 it equals the source dimensions. -/
theorem c8_canvas_extent_formula (w h : ℝ) (t : TransformsR) (f2 : Flip) :
    renderCanvasSize w h t
        = (w * |Real.cos (t.rotate * Real.pi / 180)|
             + h * |Real.sin (t.rotate * Real.pi / 180)|,
           h * |Real.cos (t.rotate * Real.pi / 180)|
             + w * |Real.sin (t.rotate * Real.pi / 180)|)
    ∧ renderCanvasSize w h { rotate := t.rotate, flip := f2 }
        = renderCanvasSize w h t
    ∧ renderCanvasSize w h { rotate := 0, flip := t.flip } = (w, h) := by
  refine ⟨rfl, rfl, ?_⟩
  unfold renderCanvasSize
  simp

/-- C2: starting from a freshly reset session, after `N` commits
(`recordHistory` calls with arbitrary patches) and `M ≤ N` undos, the
displayed edit state is the snapshot of step `N - M`, where step 0 is
the initial snapshot installed by the reset and step `k ≥ 1` is the
state committed by the k-th call (position `N - M` in the list
`initial :: committedStates`). -/
theorem c2_commits_then_undos_display (base : Session) (ps : List EditPatch)
    (M : Nat) (hM : M ≤ ps.length) :
    (undoTimes (commitList (resetEdits base INITIAL_EDIT_STATE) ps) M).current
      = (INITIAL_EDIT_STATE :: committedStates INITIAL_EDIT_STATE ps).getD
          (ps.length - M) INITIAL_EDIT_STATE := by
  have hT : (resetEdits base INITIAL_EDIT_STATE).historyIndex
      = (((resetEdits base INITIAL_EDIT_STATE).history).length : Int) - 1 := by
    simp [resetEdits]
  have h0 : 0 ≤ (resetEdits base INITIAL_EDIT_STATE).historyIndex := by
    simp [resetEdits]
  rw [commitList_tail ps _ hT h0]
  rw [undoTimes_spec M _ ?ha ?hb ?hc ?hd]
  case ha => simp only [resetEdits]; omega
  case hb =>
    simp only [resetEdits, List.length_append, List.singleton_append, List.length_cons]
    rw [committedStates_length]
    omega
  case hc =>
    simp only [resetEdits, List.singleton_append]
    have ht : ((0 : Int) + ((ps.length : Nat) : Int)).toNat = ps.length := by omega
    rw [ht]
  case hd => simp only [resetEdits]; omega
  simp only [resetEdits, List.singleton_append]
  have ht2 : ((0 : Int) + ((ps.length : Nat) : Int) - (M : Int)).toNat
      = ps.length - M := by omega
  rw [ht2]

/-- C2 witness: two commits then one undo displays the first committed
state. -/
theorem c2_witness :
    1 ≤ [wPatch, wPatch2].length ∧
    (undoTimes (commitList (resetEdits defaultSession INITIAL_EDIT_STATE)
        [wPatch, wPatch2]) 1).current
      = (INITIAL_EDIT_STATE ::
          committedStates INITIAL_EDIT_STATE [wPatch, wPatch2]).getD
          ([wPatch, wPatch2].length - 1) INITIAL_EDIT_STATE :=
  ⟨by decide,
    c2_commits_then_undos_display defaultSession [wPatch, wPatch2] 1 (by decide)⟩

/-- C4: firing the debounced commit `K ≥ 1` times within the window —
each call replacing the previously scheduled one — and then letting the
window elapse is exactly one `recordHistory` of the last call's patch:
one new history entry whose content is the last patch merged over the
state. -/
theorem c4_debounce_coalesces (s : Session) (ps : List EditPatch)
    (hne : ps ≠ [])
    (hT : s.historyIndex = (s.history.length : Int) - 1)
    (h0 : 0 ≤ s.historyIndex) :
    elapseDebounce (fireList s ps)
        = { recordHistory s (ps.getLastD emptyPatch) with pending := none }
    ∧ (elapseDebounce (fireList s ps)).history.length = s.history.length + 1
    ∧ (elapseDebounce (fireList s ps)).history.getLastD INITIAL_EDIT_STATE
        = mergeState s.current (ps.getLastD emptyPatch) := by
  cases ps with
  | nil => exact absurd rfl hne
  | cons q qs =>
    have hfire : fireList s (q :: qs) = { s with pending := some (qs.getLastD q) } := by
      have hstep : fireList s (q :: qs) = fireList { s with pending := some q } qs := by
        cases s
        rfl
      rw [hstep, fireList_set]
    have hlast : (q :: qs).getLastD emptyPatch = qs.getLastD q :=
      List.getLastD_cons emptyPatch q qs
    have hmain : elapseDebounce (fireList s (q :: qs))
        = { recordHistory s ((q :: qs).getLastD emptyPatch) with pending := none } := by
      rw [hfire, hlast]
      unfold elapseDebounce
      simp only []
      rw [recordHistory_pending]
    refine ⟨hmain, ?_, ?_⟩
    · rw [hmain]
      have hh : ({ recordHistory s ((q :: qs).getLastD emptyPatch) with
          pending := none } : Session).history
            = (recordHistory s ((q :: qs).getLastD emptyPatch)).history := rfl
      rw [hh, recordHistory_history_tail s _ hT h0]
      simp
    · rw [hmain]
      have hh : ({ recordHistory s ((q :: qs).getLastD emptyPatch) with
          pending := none } : Session).history
            = (recordHistory s ((q :: qs).getLastD emptyPatch)).history := rfl
      rw [hh, recordHistory_history, getLastD_concat]

/-- C4 witness: two debounced calls from a freshly reset session
coalesce into a single commit of the second call's patch. -/
theorem c4_witness :
    ([wPatch, wPatch2] ≠ ([] : List EditPatch)) ∧
    wSession.historyIndex = (wSession.history.length : Int) - 1 ∧
    (0 : Int) ≤ wSession.historyIndex ∧
    (elapseDebounce (fireList wSession [wPatch, wPatch2])
        = { recordHistory wSession ([wPatch, wPatch2].getLastD emptyPatch)
              with pending := none }
      ∧ (elapseDebounce (fireList wSession [wPatch, wPatch2])).history.length
          = wSession.history.length + 1
      ∧ (elapseDebounce (fireList wSession [wPatch, wPatch2])).history.getLastD
            INITIAL_EDIT_STATE
          = mergeState wSession.current ([wPatch, wPatch2].getLastD emptyPatch)) :=
  ⟨by decide, by decide, by decide,
    c4_debounce_coalesces wSession [wPatch, wPatch2] (by decide) (by decide) (by decide)⟩

/-- C5 counterexample: the claim says an out-of-bounds crop is silently
ignored with no state change.  `c5session` has a 100×100 source (canvas
100×100 at the initial identity transform) and the positive-area
rectangle (x=200, y=0, w=50, h=50), which lies entirely outside the
canvas; `handleApplyCrop` nevertheless applies it: the session changes
and the new source image is 50×50.  The source guard checks only
`width <= 0 || height <= 0` and never the bounds. -/
theorem c5_counterexample_out_of_bounds_crop_applied :
    c5session.originalImage = some { width := 100, height := 100 }
    ∧ c5session.cropRect = some { x := 200, y := 0, width := 50, height := 50 }
    ∧ c5session.current = INITIAL_EDIT_STATE
    ∧ handleApplyCrop c5session ≠ c5session
    ∧ (handleApplyCrop c5session).originalImage
        = some { width := 50, height := 50 } := by decide

/-- C5 amended: applying a crop whose rectangle has positive width and
height — whether or not it lies within the canvas bounds — produces a
new source image of exactly the rectangle's dimensions, resets the edit
state to the initial state and the history to length 1 at index 0; a
crop with non-positive width or height is silently ignored with no
state change.  (No out-of-bounds check exists in the code.) -/
theorem c5_crop_amended (s : Session) (r : CropRect) (img : Img)
    (h1 : s.cropRect = some r) (h2 : s.originalImage = some img) :
    ((0 < r.width ∧ 0 < r.height) →
      (handleApplyCrop s).originalImage
          = some { width := r.width, height := r.height }
      ∧ (handleApplyCrop s).current = INITIAL_EDIT_STATE
      ∧ (handleApplyCrop s).history = [INITIAL_EDIT_STATE]
      ∧ (handleApplyCrop s).historyIndex = 0)
    ∧ ((r.width ≤ 0 ∨ r.height ≤ 0) → handleApplyCrop s = s) := by
  unfold handleApplyCrop
  rw [h1, h2]
  simp only []
  by_cases hz : r.width ≤ 0 ∨ r.height ≤ 0
  · rw [if_pos hz]
    exact ⟨fun hp => absurd hz (by push_neg; constructor <;> linarith [hp.1, hp.2]),
      fun _ => rfl⟩
  · rw [if_neg hz]
    push_neg at hz
    exact ⟨fun _ => ⟨rfl, rfl, rfl, rfl⟩, fun hle => absurd hle (by push_neg; exact hz)⟩

/-- C5 witness: the claim's own example — crop (10, 10, 50, 50) on a
100×100 source yields a 50×50 source image, initial edit state, and a
length-1 history at index 0. -/
theorem c5_witness :
    c5good.cropRect = some { x := 10, y := 10, width := 50, height := 50 }
    ∧ c5good.originalImage = some { width := 100, height := 100 }
    ∧ (handleApplyCrop c5good).originalImage = some { width := 50, height := 50 }
    ∧ (handleApplyCrop c5good).current = INITIAL_EDIT_STATE
    ∧ (handleApplyCrop c5good).history = [INITIAL_EDIT_STATE]
    ∧ (handleApplyCrop c5good).historyIndex = 0 := by
  refine ⟨rfl, rfl, ?_⟩
  have h := (c5_crop_amended c5good
      { x := 10, y := 10, width := 50, height := 50 }
      { width := 100, height := 100 } rfl rfl).1 (by constructor <;> norm_num)
  exact ⟨h.1, h.2.1, h.2.2.1, h.2.2.2⟩

/-- C6 counterexample: the claim says a history entry is committed on
release only if the tool was draw, shape, or a select-drag *that changed
a text/shape element's position*.  Here a pointer-down with the `select`
tool hits `demoShape` and the pointer is released with no move event:
the edit state is unchanged since the last commit, yet
`handleMouseUpOrLeave` appends a (duplicate) history entry — the source
commits on any select-drag, moved or not. -/
theorem c6_counterexample_unmoved_drag_commits :
    c6down.activeTool = some Tool.select
    ∧ c6down.isDragging = true
    ∧ c6down.current = c6session.current
    ∧ c6down.history = c6session.history
    ∧ c6session.history.getLastD INITIAL_EDIT_STATE = c6session.current
    ∧ c6session.history.length = 1
    ∧ (handleMouseUpOrLeave c6down).history.length = 2 := by decide

/-- C6 amended: on release of an open interaction the resulting edit
state is committed as exactly one entry if and only if the active tool
was `draw`, `shape`, or `select` with an active drag — regardless of
whether the drag changed any element's position; in all other cases no
entry is added. -/
theorem c6_release_commit_amended (s : Session)
    (hT : s.historyIndex = (s.history.length : Int) - 1)
    (h0 : 0 ≤ s.historyIndex) :
    (commitOnRelease s →
      (handleMouseUpOrLeave s).history = s.history ++ [s.current])
    ∧ (¬ commitOnRelease s → (handleMouseUpOrLeave s).history = s.history) := by
  constructor
  · rintro ⟨hdraw, hcase⟩
    unfold handleMouseUpOrLeave
    simp only [hdraw, if_true]
    rcases hcase with h | h | ⟨h, hdrag⟩
    · rw [h]
      simp only []
      rw [recordHistory_history_tail s _ hT h0, mergeState_paths_self]
    · rw [h]
      simp only []
      rw [recordHistory_history_tail s _ hT h0, mergeState_shapes_self]
    · rw [h]
      simp only [hdrag, if_true]
      rw [recordHistory_history_tail s _ hT h0, mergeState_texts_shapes_self]
  · intro hnc
    unfold handleMouseUpOrLeave
    by_cases hd : s.isDrawing = true
    · simp only [hd, if_true]
      rcases htool : s.activeTool with _ | tl
      · rfl
      · cases tl with
        | draw => exact absurd ⟨hd, Or.inl htool⟩ hnc
        | shape => exact absurd ⟨hd, Or.inr (Or.inl htool)⟩ hnc
        | select =>
          by_cases hdr : s.isDragging = true
          · exact absurd ⟨hd, Or.inr (Or.inr ⟨htool, hdr⟩)⟩ hnc
          · simp only [hdr, if_false]
            rfl
        | adjust => rfl
        | transform => rfl
        | crop => rfl
        | text => rfl
        | harmonize => rfl
        | remove => rfl
    · simp only [Bool.not_eq_true] at hd
      simp only [hd]
      rfl

/-- C6 witness: releasing the unmoved select-drag `c6down` commits its
current state as one appended entry. -/
theorem c6_witness :
    c6down.historyIndex = (c6down.history.length : Int) - 1
    ∧ (0 : Int) ≤ c6down.historyIndex
    ∧ commitOnRelease c6down
    ∧ (handleMouseUpOrLeave c6down).history = c6down.history ++ [c6down.current] :=
  ⟨by decide, by decide, by decide,
    (c6_release_commit_amended c6down (by decide) (by decide)).1 (by decide)⟩

/-- Strictly inside the control-point bounding box implies the source
hit test fires. -/
theorem specStrictlyInside_shapeHit (pt : Point) (sh : ShapeElement)
    (h : specStrictlyInsideShapeBox pt sh) : shapeHit pt sh = true := by
  obtain ⟨h1, h2, h3, h4⟩ := h
  unfold shapeHit
  simp only [Bool.and_eq_true, decide_eq_true_eq]
  exact ⟨⟨⟨le_of_lt h1, le_of_lt h2⟩, le_of_lt h3⟩, le_of_lt h4⟩

/-- Strictly outside the bounding box implies the source hit test does
not fire. -/
theorem specStrictlyOutside_shapeHit (pt : Point) (sh : ShapeElement)
    (h : specStrictlyOutsideShapeBox pt sh) : ¬ shapeHit pt sh = true := by
  intro hc
  unfold shapeHit at hc
  simp only [Bool.and_eq_true, decide_eq_true_eq] at hc
  obtain ⟨⟨⟨a1, a2⟩, a3⟩, a4⟩ := hc
  rcases h with h | h | h | h <;> linarith

/-- Strictly outside the estimated text box implies the source text hit
test does not fire. -/
theorem specStrictlyOutside_textHit (pt : Point) (t : TextElement)
    (h : specStrictlyOutsideTextBox pt t) : ¬ textHit pt t = true := by
  intro hc
  unfold textHit at hc
  simp only [Bool.and_eq_true, decide_eq_true_eq] at hc
  obtain ⟨⟨⟨a1, a2⟩, a3⟩, a4⟩ := hc
  rcases h with h | h | h | h <;> linarith

/-- C7: with the `select` tool, pointer-down hit-tests text elements
first (estimated box `size * length * 0.6` by `size`) and then shape
elements (min/max bounding box of the control points); the first match
(`find?`) wins and a drag starts with the offset from the element's
anchor; a point strictly inside some shape's bounding box always selects
an element, and a point strictly outside every element's box selects
nothing. -/
theorem c7_select_hit_testing (s : Session) (pt : Point) (nid : String)
    (hTool : s.activeTool = some Tool.select) :
    (∀ t, s.current.texts.find? (textHit pt) = some t →
        (handleMouseDown s nid pt).selectedElement
            = some { kind := ElemKind.text, id := t.id }
        ∧ (handleMouseDown s nid pt).isDragging = true
        ∧ (handleMouseDown s nid pt).dragStart
            = { x := pt.x - t.x, y := pt.y - t.y })
    ∧ (s.current.texts.find? (textHit pt) = none →
        ∀ sh, s.current.shapes.find? (shapeHit pt) = some sh →
          (handleMouseDown s nid pt).selectedElement
              = some { kind := ElemKind.shape, id := sh.id }
          ∧ (handleMouseDown s nid pt).isDragging = true
          ∧ (handleMouseDown s nid pt).dragStart
              = { x := pt.x - sh.x1, y := pt.y - sh.y1 })
    ∧ ((∃ sh ∈ s.current.shapes, specStrictlyInsideShapeBox pt sh) →
        (handleMouseDown s nid pt).selectedElement ≠ none)
    ∧ ((∀ t ∈ s.current.texts, specStrictlyOutsideTextBox pt t) →
        (∀ sh ∈ s.current.shapes, specStrictlyOutsideShapeBox pt sh) →
        (handleMouseDown s nid pt).selectedElement = none
        ∧ (handleMouseDown s nid pt).isDragging = s.isDragging) := by
  unfold handleMouseDown
  simp only [hTool]
  refine ⟨?_, ?_, ?_, ?_⟩
  · intro t ht
    simp only [ht]
    exact ⟨trivial, trivial, trivial⟩
  · intro hn sh hsh
    simp only [hn, hsh]
    exact ⟨trivial, trivial, trivial⟩
  · rintro ⟨sh, hmem, hin⟩
    have hsome : (s.current.shapes.find? (shapeHit pt)).isSome := by
      rw [List.find?_isSome]
      exact ⟨sh, hmem, specStrictlyInside_shapeHit pt sh hin⟩
    obtain ⟨sh2, hsh2⟩ := Option.isSome_iff_exists.mp hsome
    rcases htf : s.current.texts.find? (textHit pt) with _ | t0
    · simp only [htf, hsh2]
      exact Option.some_ne_none _
    · simp only [htf]
      exact Option.some_ne_none _
  · intro htxt hshp
    have htn : s.current.texts.find? (textHit pt) = none := by
      rw [List.find?_eq_none]
      exact fun t hm => specStrictlyOutside_textHit pt t (htxt t hm)
    have hsn : s.current.shapes.find? (shapeHit pt) = none := by
      rw [List.find?_eq_none]
      exact fun sh hm => specStrictlyOutside_shapeHit pt sh (hshp sh hm)
    simp only [htn, hsn]
    exact ⟨trivial, trivial⟩

/-- C7 witness: at (5,5) on `c7session` the text is missed, the shape's
box contains the point, and pointer-down selects the shape with the
offset from its anchor. -/
theorem c7_witness :
    c7session.activeTool = some Tool.select
    ∧ c7session.current.texts.find? (textHit { x := 5, y := 5 }) = none
    ∧ c7session.current.shapes.find? (shapeHit { x := 5, y := 5 })
        = some demoShape
    ∧ ((handleMouseDown c7session "9" { x := 5, y := 5 }).selectedElement
          = some { kind := ElemKind.shape, id := demoShape.id }
      ∧ (handleMouseDown c7session "9" { x := 5, y := 5 }).isDragging = true
      ∧ (handleMouseDown c7session "9" { x := 5, y := 5 }).dragStart
          = { x := 5 - demoShape.x1, y := 5 - demoShape.y1 }) :=
  ⟨by decide, by decide, by decide,
    (c7_select_hit_testing c7session { x := 5, y := 5 } "9" (by decide)).2.1
      (by decide) demoShape (by decide)⟩

/-- C9: during a select-drag of a shape, every move event maps the
collection so that the targeted shape (matched by id) has both control
points translated by one common delta — hence the differences
`x2 - x1`, `y2 - y1` (and so the rectangle's dimensions, circle's
radius and line's length) and the `type`, `color`, `strokeWidth`, `id`
fields are unchanged — while every shape with a different id is left
exactly as it was. -/
theorem c9_drag_translates_shape (s : Session) (pt : Point) (sel : SelectedRef)
    (h1 : s.isDrawing = true) (h2 : s.activeTool = some Tool.select)
    (h3 : s.isDragging = true) (h4 : s.selectedElement = some sel)
    (h5 : sel.kind = ElemKind.shape) :
    (handleMouseMove s pt).current.shapes.length = s.current.shapes.length
    ∧ (∀ i : Nat, i < s.current.shapes.length →
        (((s.current.shapes.getD i defaultShape).id ≠ sel.id →
          (handleMouseMove s pt).current.shapes.getD i defaultShape
            = s.current.shapes.getD i defaultShape)
        ∧ ((s.current.shapes.getD i defaultShape).id = sel.id →
          ∃ dx dy : ℚ,
            (handleMouseMove s pt).current.shapes.getD i defaultShape
              = specTranslateShape (s.current.shapes.getD i defaultShape) dx dy)))
    ∧ (∀ (sh : ShapeElement) (dx dy : ℚ),
        (specTranslateShape sh dx dy).x2 - (specTranslateShape sh dx dy).x1
            = sh.x2 - sh.x1
        ∧ (specTranslateShape sh dx dy).y2 - (specTranslateShape sh dx dy).y1
            = sh.y2 - sh.y1
        ∧ (specTranslateShape sh dx dy).type = sh.type
        ∧ (specTranslateShape sh dx dy).color = sh.color
        ∧ (specTranslateShape sh dx dy).strokeWidth = sh.strokeWidth
        ∧ (specTranslateShape sh dx dy).id = sh.id) := by
  have hred : (handleMouseMove s pt).current.shapes
      = s.current.shapes.map (fun sh =>
          if sh.id = sel.id then
            let dx := pt.x - s.dragStart.x - sh.x1
            let dy := pt.y - s.dragStart.y - sh.y1
            { sh with x1 := sh.x1 + dx, y1 := sh.y1 + dy
                      x2 := sh.x2 + dx, y2 := sh.y2 + dy }
          else sh) := by
    unfold handleMouseMove
    simp only [h1, h2, h3, h4, h5]
    rw [if_neg (by simp)]
  refine ⟨?_, ?_, ?_⟩
  · rw [hred, List.length_map]
  · intro i hi
    constructor
    · intro hne
      rw [hred, getD_map_lt _ _ i _ hi, if_neg hne]
    · intro heq
      rw [hred, getD_map_lt _ _ i _ hi, if_pos heq]
      exact ⟨pt.x - s.dragStart.x - (s.current.shapes.getD i defaultShape).x1,
        pt.y - s.dragStart.y - (s.current.shapes.getD i defaultShape).y1, rfl⟩
  · intro sh dx dy
    unfold specTranslateShape
    refine ⟨by ring, by ring, rfl, rfl, rfl, rfl⟩

/-- C9 witness: moving the drag on `c9session` to (7, 8) translates
`demoShape` by one delta and keeps the collection length. -/
theorem c9_witness :
    c9session.isDrawing = true ∧ c9session.activeTool = some Tool.select
    ∧ c9session.isDragging = true
    ∧ c9session.selectedElement = some { kind := ElemKind.shape, id := "7" }
    ∧ (handleMouseMove c9session { x := 7, y := 8 }).current.shapes.length
        = c9session.current.shapes.length :=
  ⟨by decide, by decide, by decide, by decide,
    (c9_drag_translates_shape c9session { x := 7, y := 8 }
      { kind := ElemKind.shape, id := "7" }
      (by decide) (by decide) (by decide) (by decide) (by decide)).1⟩

/-- C10: a path of fewer than 2 points contributes nothing to the
rendered command stream — removing it from the edit state leaves the
output identical; and a draw-tool pointer-down with no pointer-move
appends a one-point path, which the following release commits to
history, while the rendered output is unchanged. -/
theorem c10_short_paths_invisible (st : EditState) (tool : Option Tool)
    (rm : List Path) (cw ch : ℚ) (l1 l2 : List Path) (p : Path)
    (hshort : p.points.length < 2) (hsplit : st.paths = l1 ++ p :: l2)
    (s : Session) (nid : String) (pt : Point)
    (hTool : s.activeTool = some Tool.draw)
    (hT : s.historyIndex = (s.history.length : Int) - 1)
    (h0 : 0 ≤ s.historyIndex) :
    renderCommands st tool rm cw ch
        = renderCommands { st with paths := l1 ++ l2 } tool rm cw ch
    ∧ (handleMouseDown s nid pt).current.paths
        = s.current.paths ++
            [{ points := [pt], color := s.brushColor, size := s.brushSize, id := nid }]
    ∧ (handleMouseUpOrLeave (handleMouseDown s nid pt)).history
        = s.history ++ [(handleMouseDown s nid pt).current]
    ∧ renderCommands (handleMouseDown s nid pt).current s.activeTool s.removeMask cw ch
        = renderCommands s.current s.activeTool s.removeMask cw ch := by
  have hdp : drawPath p = [] := by
    unfold drawPath
    rw [if_pos hshort]
  have hH : (handleMouseDown s nid pt).history = s.history := by
    unfold handleMouseDown
    simp only [hTool]
  have hI : (handleMouseDown s nid pt).historyIndex = s.historyIndex := by
    unfold handleMouseDown
    simp only [hTool]
  have hD : (handleMouseDown s nid pt).isDrawing = true := by
    unfold handleMouseDown
    simp only [hTool]
  have hA : (handleMouseDown s nid pt).activeTool = some Tool.draw := by
    unfold handleMouseDown
    simp only [hTool]
  have hcur : (handleMouseDown s nid pt).current
      = { s.current with paths := s.current.paths ++
            [{ points := [pt], color := s.brushColor, size := s.brushSize, id := nid }] } := by
    unfold handleMouseDown
    simp only [hTool]
  refine ⟨?_, ?_, ?_, ?_⟩
  · unfold renderCommands
    simp only [hsplit, List.map_append, List.map_cons, List.flatten_append,
      List.flatten_cons, hdp, List.nil_append]
  · rw [hcur]
  · unfold handleMouseUpOrLeave
    simp only [hD, if_true, hA]
    rw [recordHistory_history_tail _ _ (by rw [hI, hH]; exact hT) (by rw [hI]; exact h0)]
    rw [mergeState_paths_self, hH]
  · rw [hcur]
    have hdp1 : drawPath
        { points := [pt], color := s.brushColor, size := s.brushSize, id := nid } = [] := by
      unfold drawPath
      rw [if_pos (by simp)]
    unfold renderCommands
    simp only [List.map_append, List.map_cons, List.map_nil, List.flatten_append,
      List.flatten_cons, List.flatten_nil, hdp1, List.nil_append, List.append_nil]

/-- C10 witness: the one-point path in `c10state` renders to the same
command stream as the empty edit state, and on `c10session` a draw
pointer-down at (3,4) followed by release commits the one-point path
while leaving the rendered output unchanged. -/
theorem c10_witness :
    onePointPath.points.length < 2
    ∧ c10state.paths = [] ++ onePointPath :: []
    ∧ c10session.activeTool = some Tool.draw
    ∧ (renderCommands c10state none [] 100 100
          = renderCommands { c10state with paths := [] ++ [] } none [] 100 100
      ∧ (handleMouseDown c10session "p1" { x := 3, y := 4 }).current.paths
          = c10session.current.paths ++
              [{ points := [{ x := 3, y := 4 }], color := c10session.brushColor
                 size := c10session.brushSize, id := "p1" }]
      ∧ (handleMouseUpOrLeave (handleMouseDown c10session "p1" { x := 3, y := 4 })).history
          = c10session.history
              ++ [(handleMouseDown c10session "p1" { x := 3, y := 4 }).current]
      ∧ renderCommands (handleMouseDown c10session "p1" { x := 3, y := 4 }).current
            c10session.activeTool c10session.removeMask 100 100
          = renderCommands c10session.current
              c10session.activeTool c10session.removeMask 100 100) :=
  ⟨by decide, by decide, by decide,
    c10_short_paths_invisible c10state none [] 100 100 [] [] onePointPath
      (by decide) (by decide) c10session "p1" { x := 3, y := 4 }
      (by decide) (by decide) (by decide)⟩

end Hiskon
